import Mathlib

/-!
Verification of the baca reading application's document search and
cross-edition alignment engine (`src/baca/components/contents.py` and the
alignment logic embedded in `src/baca/app.py`).

The shallow embedding below translates the Python code function by function:

* Python strings are Lean `String`s; all character-level primitives (splitting
  on whitespace, stripping, joining) are implemented over `List Char` so that
  every definition evaluates by kernel reduction.
* A rendered segment (`SegmentWidget` of `contents.py`) is modelled by its
  virtual height and a total line-extraction function `textAt : Int → Bool →
  String`, the second argument being the `rtl_fix` flag of
  `SegmentWidget.get_text_at` (contents.py 48-59).  The actual rendering is
  performed by the textual framework and is treated as an opaque collaborator,
  exactly as the spec's §6 "Layout/rendering provider" prescribes.
* The bidi display transform `bidi.algorithm.get_display` is an external
  library; functions that call it take it as an explicit argument `gd`.
  Concrete examples instantiate `gd := id`, which agrees with the real
  Unicode bidi algorithm on the pure-ASCII left-to-right strings used there.
* Python `None` propagation is modelled with `Option`, an uncaught exception
  with `Except`/`Option.none` as documented at each definition.
-/

/-- Python's whitespace test for the ASCII whitespace characters recognised by
`str.split`, `str.strip` and the regex class `\s`. -/
def pyIsSpace (c : Char) : Bool :=
  c = ' ' || c = '\t' || c = '\n' || c = '\r' || c = '\x0b' || c = '\x0c'

/-- Helper for `pySplitWs`: scan the characters, accumulating the current word
(in reverse). -/
def splitWsAux : List Char → List Char → List String
  | [], cur => if cur.isEmpty then [] else [String.mk cur.reverse]
  | c :: rest, cur =>
      if pyIsSpace c then
        if cur.isEmpty then splitWsAux rest []
        else String.mk cur.reverse :: splitWsAux rest []
      else splitWsAux rest (c :: cur)

/-- Python `s.split()` (no argument): split on runs of whitespace, dropping
empty pieces. -/
def pySplitWs (s : String) : List String := splitWsAux s.data []

/-- Python `s.strip()`: remove leading and trailing whitespace. -/
def pyStrip (s : String) : String :=
  String.mk (((s.data.dropWhile pyIsSpace).reverse.dropWhile pyIsSpace).reverse)

/-- Python `sep.join(xs)`. -/
def pyJoin (sep : String) : List String → String
  | [] => ""
  | [x] => x
  | x :: rest => x ++ sep ++ pyJoin sep rest

/-- Python `" " * n` for an integer `n`: the empty string when `n ≤ 0`. -/
def pySpaces (n : Int) : String := String.mk (List.replicate n.toNat ' ')

/-- Modelled from the spec: `baca.models.Coordinate` (the `models` module is
not under `src/`) — "Coordinate — (x: integer, y: integer)" (§3), `y` a global
virtual line index, `x` a character offset within that line. -/
structure Coordinate where
  x : Int
  y : Int
deriving DecidableEq

/-- One mounted segment of a `Content` widget: its rendered virtual height
(`segment.virtual_region_with_margin.height`) and its line extraction
`SegmentWidget.get_text_at(y, rtl_fix)` (contents.py 48-59), modelled as a
total function supplied by the layout provider. -/
structure SegmentW where
  height : Nat
  textAt : Int → Bool → String

/-- The `Content` widget (contents.py 212-226): the ordered segment sequence
`self._segments` and the `is_rtl` flag set by `set_rtl_true`. -/
structure Content where
  segments : List SegmentW
  is_rtl : Bool

/-- `Content.virtual_size.height`: the total rendered height, the sum of the
mounted segments' virtual heights (spec §3: "total virtual height equals the
sum of all segment heights"). -/
def vheight (D : Content) : Nat := (D.segments.map SegmentW.height).sum

/-- The accumulation loop of `Content.get_text_at` (contents.py 257-264):
walk the segments summing heights; the first segment with
`accumulated_height + segment_height > y` handles the request.  Falling off
the end of the loop returns Python `None`. -/
def getTextAtAux : List SegmentW → Int → Int → Bool → Option String
  | [], _, _, _ => none
  | s :: rest, acc, y, fix =>
      if acc + (s.height : Int) > y then some (s.textAt (y - acc) fix)
      else getTextAtAux rest (acc + (s.height : Int)) y fix

/-- `Content.get_text_at(y, rtl_fix)` (contents.py 257-264). -/
def getTextAt (D : Content) (y : Int) (fix : Bool) : Option String :=
  getTextAtAux D.segments 0 y fix

/-- Helper for `intRange`: `n` consecutive integers starting at `a`. -/
def intRangeAux : Nat → Int → List Int
  | 0, _ => []
  | n + 1, a => a :: intRangeAux n (a + 1)

/-- Python `range(a, b)` over integers, as a list. -/
def intRange (a b : Int) : List Int := intRangeAux (b - a).toNat a

theorem mem_intRangeAux {n : Nat} {a x : Int} (h : x ∈ intRangeAux n a) :
    a ≤ x ∧ x < a + n := by
  induction n generalizing a with
  | zero => simp [intRangeAux] at h
  | succ n ih =>
      simp only [intRangeAux, List.mem_cons] at h
      rcases h with rfl | h
      · omega
      · have := ih h
        omega

theorem mem_intRange {a b x : Int} (h : x ∈ intRange a b) : a ≤ x ∧ x < b := by
  have := mem_intRangeAux (n := (b - a).toNat) (a := a) h
  omega

/-- Case-insensitive character comparison, modelling `re.IGNORECASE` on the
ASCII text used throughout. -/
def ciEq (a b : Char) : Bool := a.toLower == b.toLower

/-- Case-insensitive "`w` is a prefix of `cs`". -/
def ciStartsWith : List Char → List Char → Bool
  | [], _ => true
  | _ :: _, [] => false
  | a :: as_, b :: bs => ciEq a b && ciStartsWith as_ bs

/-- Consume the leading whitespace run, returning its length and the rest
(the deterministic behaviour of a greedy `\s+` whose successor starts with a
non-whitespace character). -/
def dropWsCount : List Char → Nat × List Char
  | [] => (0, [])
  | c :: rest =>
      if pyIsSpace c then
        let p := dropWsCount rest
        (p.fst + 1, p.snd)
      else (0, c :: rest)

/-- Does the regex `\s+`.join(map(re.escape, words)) (contents.py 275-277)
match at the head of `cs`?  Each word is matched literally and
case-insensitively; between two words at least one whitespace character is
required.  Since pattern words contain no whitespace, the greedy `\s+` is
forced to consume exactly the whitespace run.  The empty word list gives the
empty regex, which matches everywhere. -/
def matchFrom : List String → List Char → Bool
  | [], _ => true
  | [w], cs => ciStartsWith w.data cs
  | w :: ws, cs =>
      ciStartsWith w.data cs &&
        (let p := dropWsCount (cs.drop w.data.length)
         decide (1 ≤ p.fst) && matchFrom ws p.snd)

/-- `pattern.search(chunk)`: index of the leftmost match, `none` if the
pattern matches nowhere (so `re.search` returns `None`). -/
def reSearch (words : List String) : List Char → Option Nat
  | [] => if matchFrom words [] then some 0 else none
  | c :: rest =>
      if matchFrom words (c :: rest) then some 0
      else (reSearch words rest).map (fun n => n + 1)

/-- The lookahead collection of `Content.search_next` (contents.py 290-296):
up to 10 lines in the scan direction, keeping only in-bounds, non-empty
(`if strip:`) lines.  `fix` is the `rtl_fix` argument passed to
`get_text_at`; the source passes none, i.e. the default `True`. -/
def grabLines (D : Content) (fix : Bool) (linenr : Int) (fwd : Bool) : List String :=
  (List.range 10).filterMap (fun i =>
    let target : Int := if fwd then linenr + (i : Int) else linenr - (i : Int)
    if 0 ≤ target ∧ target < (vheight D : Int) then
      match getTextAt D target fix with
      | some s => if s = "" then none else some s
      | none => none
    else none)

/-- `chunk_text = " ".join(lines_to_grab)` (contents.py 298). -/
def chunkAt (D : Content) (fix : Bool) (linenr : Int) (fwd : Bool) : String :=
  pyJoin " " (grabLines D fix linenr fwd)

/-- The per-candidate-line body of the `search_next` scan loop (contents.py
300-322): `none` means the Python loop falls through (or `continue`s) to the
next candidate line, `some` is the returned match `Coordinate`.  The
highlight mounting and scrolling side effects (contents.py 315-321) do not
touch the segment text and are omitted. -/
def acceptAt (D : Content) (fix : Bool) (words : List String) (c : Coordinate)
    (fwd : Bool) (linenr : Int) : Option Coordinate :=
  if chunkAt D fix linenr fwd = "" then none
  else
    match reSearch words (chunkAt D fix linenr fwd).data with
    | none => none
    | some s =>
        if s ≤ ((getTextAt D linenr fix).getD "").length then
          if linenr = c.y ∧ (s : Int) ≤ c.x then none
          else some ⟨(s : Int), linenr⟩
        else none

/-- The `for linenr in line_range` loop of `search_next` (contents.py
287-324). -/
def searchLoopF (D : Content) (fix : Bool) (words : List String) (c : Coordinate)
    (fwd : Bool) : List Int → Option Coordinate
  | [] => none
  | l :: rest =>
      match acceptAt D fix words c fwd l with
      | some m => some m
      | none => searchLoopF D fix words c fwd rest

/-- Steps 0-1 of `search_next` (contents.py 270-276): bidi-reorder the query
via the external `get_display` (`gd`) when the document is flagged
right-to-left, then tokenise it into pattern words. -/
def searchWords (gd : String → String) (D : Content) (pattern_str : String) :
    List String :=
  pySplitWs (if D.is_rtl then gd pattern_str else pattern_str)

/-- The scan range of `search_next` (contents.py 282-285): forward from the
cursor line to the end, backward from the cursor line down to 0. -/
def searchRange (D : Content) (c : Coordinate) (fwd : Bool) : List Int :=
  if fwd then intRange c.y (vheight D : Int)
  else (intRange 0 (c.y + 1)).reverse

/-- `Content.search_next(pattern_str, current_coord, forward)` (contents.py
267-324).  The lookahead lines and the candidate line are fetched with the
default `rtl_fix=True` (contents.py 294 and 307 pass no `rtl_fix`
argument). -/
def searchNext (gd : String → String) (D : Content) (pattern_str : String)
    (c : Coordinate) (fwd : Bool) : Option Coordinate :=
  searchLoopF D true (searchWords gd D pattern_str) c fwd (searchRange D c fwd)

/-- The variant of `search_next` described by the spec (§4.3 step 4) and by
claim C1: identical, except that every line of the lookahead window is
fetched with `apply_rtl_fix=false` (logical, un-reordered text).  This is a
claim-side definition, for comparison with `searchNext`. -/
def searchNextSpecLogical (gd : String → String) (D : Content)
    (pattern_str : String) (c : Coordinate) (fwd : Bool) : Option Coordinate :=
  searchLoopF D false (searchWords gd D pattern_str) c fwd (searchRange D c fwd)

/-- `re.split(r'([.])\s*', cleaned)` (contents.py 340): pieces of text
alternating with the captured `"."` delimiters; the whitespace following a
period is consumed.  `skip` is true while inside the `\s*` run following a
matched period.  The result always has odd length. -/
def reSplitDotAux : List Char → List Char → Bool → List String
  | [], cur, _ => [String.mk cur.reverse]
  | c :: rest, cur, skip =>
      if skip && pyIsSpace c then reSplitDotAux rest cur true
      else if c = '.' then
        String.mk cur.reverse :: "." :: reSplitDotAux rest [] true
      else reSplitDotAux rest (c :: cur) false

/-- The reconstruction loop of `text_to_sentences` (contents.py 346-351):
`for i in range(0, len(sentences) - 1, 2)`, recombining each text fragment
with its following delimiter when the stripped fragment is non-empty. -/
def recombinePairs : List String → List String
  | t :: d :: rest =>
      (if pyStrip t = "" then [] else [pyStrip t ++ pyStrip d]) ++
        recombinePairs rest
  | _ => []

/-- Lines 343-358 of `text_to_sentences`: the pair loop plus the trailing
fragment kept when the split list has odd length and the stripped last
fragment is non-empty. -/
def recombineAll (sentences : List String) : List String :=
  recombinePairs sentences ++
    (if sentences.length % 2 ≠ 0 then
       if pyStrip (sentences.getLastD "") = "" then []
       else [pyStrip (sentences.getLastD "")]
     else [])

/-- `Content.text_to_sentences(paragraph)` (contents.py 326-361): normalise
whitespace runs to single spaces, split on the literal period, recombine,
and drop empty strings. -/
def text_to_sentences (paragraph : String) : List String :=
  (recombineAll (reSplitDotAux (pyJoin " " (pySplitWs paragraph)).data [] false)).filter
    (fun s => s ≠ "")

/-- The chunk collection shared by `get_n_visible_sentences` (contents.py
369-379) and the `alignment_search` loop (contents.py 418-426): a forward
lookahead of up to 10 lines fetched with `rtl_fix=False`, keeping non-empty
lines, joined with single spaces. -/
def alignChunk (D : Content) (linenr : Int) : String :=
  pyJoin " " ((List.range 10).filterMap (fun i =>
    let target : Int := linenr + (i : Int)
    if 0 ≤ target ∧ target < (vheight D : Int) then
      match getTextAt D target false with
      | some s => if s = "" then none else some s
      | none => none
    else none))

/-- The per-line fingerprint computed inside the `alignment_search` loop
(contents.py 428-432): sentences of the lookahead chunk, first (likely
partial) sentence dropped, the next up to `n = 5` joined with single
spaces (`all_sentences[1:n + 1]`). -/
def lineFingerprint (D : Content) (linenr : Int) : String :=
  pyJoin " " (((text_to_sentences (alignChunk D linenr)).drop 1).take 5)

/-- The `for linenr in line_range` loop of `alignment_search` (contents.py
416-437): return `linenr + 1` at the first line whose fingerprint equals
`pattern_str`, else `None`. -/
def alignLoop (D : Content) (pattern_str : String) : List Int → Option Int
  | [] => none
  | l :: rest =>
      if lineFingerprint D l = pattern_str then some (l + 1)
      else alignLoop D pattern_str rest

/-- The scan range of `alignment_search` (contents.py 401-411):
`range(0, height)` when `radius == -1`, otherwise
`range(max(0, y - radius), min(y + radius, height))`. -/
def alignRange (D : Content) (c : Coordinate) (radius : Int) : List Int :=
  if radius = -1 then intRange 0 (vheight D : Int)
  else intRange (max 0 (c.y - radius)) (min (c.y + radius) (vheight D : Int))

/-- `Content.alignment_search(pattern_str, current_coord, radius)`
(contents.py 397-437). -/
def alignmentSearch (D : Content) (pattern_str : String) (c : Coordinate)
    (radius : Int) : Option Int :=
  alignLoop D pattern_str (alignRange D c radius)

/-- A Python value as handled by `perform_alignment` (app.py 190-203): the
`match` variable holds either `None` or the plain `int` returned by
`alignment_search`; a `Coordinate` value is what `.y` access would need. -/
inductive PyVal where
  | pyNone
  | pyInt (n : Int)
  | pyCoord (x y : Int)
deriving DecidableEq

/-- Python truthiness of the `match` value (`if match:`). -/
def pyTruthy : PyVal → Bool
  | .pyNone => false
  | .pyInt n => n != 0
  | .pyCoord _ _ => true

/-- Python attribute access `v.y`: defined on a `Coordinate`, an
`AttributeError` (modelled as `none`) on `int` and `None`. -/
def getattrY : PyVal → Option Int
  | .pyCoord _ y => some y
  | .pyInt _ => none
  | .pyNone => none

/-- Wrap the `int | None` result of `alignment_search` as the Python value
bound to `match` in `perform_alignment` (app.py 191-197). -/
def alignResultToPy : Option Int → PyVal
  | none => .pyNone
  | some n => .pyInt n

/-- Outcome of the post-search step of `perform_alignment`. -/
inductive AlignOutcome where
  | scrolled (y : Int)
  | alerted
deriving DecidableEq

/-- The `if match: self.screen.scroll_to(y=match.y) ... else: alert`
step of `perform_alignment` (app.py 200-203).  `none` models the
`AttributeError` raised by `match.y` escaping the step. -/
def scrollStep (m : PyVal) : Option AlignOutcome :=
  if pyTruthy m then
    match getattrY m with
    | some y => some (.scrolled y)
    | none => none
  else some .alerted

/-- One entry of the parallel-sentence index `matches.json`, with an English
and a Hebrew side (app.py 163-169). -/
structure MatchEntry where
  eng : String
  heb : String

/-- The lookup loop of `get_matching_lines_from_json` (app.py 163-172): scan
the entries in order, returning the opposite side of the first entry whose
`eng` or `heb` equals the query.  (The `if 'הוא טוען' in lines_json['heb']:
pass` statement at app.py 164-165 is a no-op and is not modelled.) -/
def lookupMatches : List MatchEntry → String → Option String
  | [], _ => none
  | e :: rest, l =>
      if e.eng = l then some e.heb
      else if e.heb = l then some e.eng
      else lookupMatches rest l

/-- `get_matching_lines_from_json(lines_to_match, json_pth)` (app.py
157-172).  The file system is modelled by `file : Option (List MatchEntry)`:
`none` when `matches.json` is missing or unreadable — in which case the
unguarded `open(json_pth, 'r')` raises `FileNotFoundError`, modelled as
`Except.error` — and `some data` when the JSON loads. -/
def get_matching_lines_from_json (file : Option (List MatchEntry))
    (lines_to_match : String) : Except String (Option String) :=
  match file with
  | none => .error "FileNotFoundError"
  | some data => .ok (lookupMatches data lines_to_match)

/-- The justification loop of `Body.render_line` (contents.py 119-123):
`for i, word in enumerate(words[:-1]): justified_line += word + " " *
(space_width + (1 if i < extra_spaces else 0))`, then the last word is
appended bare.  `i` is the running index, `sw` the computed `space_width`,
`extra` the computed `extra_spaces` (both Python ints, possibly negative
when the words overflow the width; `" " * n` of a negative `n` is empty). -/
def buildJustified : List String → Nat → Int → Int → String
  | [], _, _, _ => ""
  | [w], _, _, _ => w
  | w :: rest, i, sw, extra =>
      w ++ pySpaces (sw + (if (i : Int) < extra then 1 else 0)) ++
        buildJustified rest (i + 1) sw extra

/-- The Hebrew branch of `Body.render_line` (contents.py 101-130), up to but
not including the final `get_display` bidi reordering: strip the strip's
text, full-justify when text-align is justify, the line has more than one
word and its length exceeds 80% of the widget width, otherwise right-pad to
the width.  The float comparison `len(line_text) > target_width * 0.8` is
modelled by the exact rational comparison `5 * len > 4 * W`.  A blank line
is returned unchanged (contents.py 102-104). -/
def renderLineRtlText (raw : String) (W : Nat) (justify : Bool) : String :=
  if pyStrip raw = "" then raw
  else
    if justify ∧ 1 < (pySplitWs (pyStrip raw)).length ∧
        4 * W < 5 * (pyStrip raw).length then
      buildJustified (pySplitWs (pyStrip raw)) 0
        (Int.ediv ((W : Int) - ((pySplitWs (pyStrip raw)).map String.length).sum)
          (((pySplitWs (pyStrip raw)).length : Int) - 1))
        (Int.emod ((W : Int) - ((pySplitWs (pyStrip raw)).map String.length).sum)
          (((pySplitWs (pyStrip raw)).length : Int) - 1))
    else
      if 0 < (W : Int) - ((pyStrip raw) : String).length then
        pyStrip raw ++ pySpaces ((W : Int) - ((pyStrip raw) : String).length)
      else pyStrip raw

/-- Claim-side definition, following the spec's words on justification (§4.2):
the widths of the inter-word gaps, "distributing the remainder as one extra
space to the first `remainder` gaps". -/
def spec_gapWidths (slots sw extra : Nat) : List Nat :=
  (List.range slots).map (fun i => sw + if i < extra then 1 else 0)

/-- Claim-side definition: words joined with explicitly given gap widths. -/
def joinWithGaps : List String → List Nat → String
  | [], _ => ""
  | [w], _ => w
  | w :: rest, g :: gs => w ++ String.mk (List.replicate g ' ') ++ joinWithGaps rest gs
  | w :: rest, [] => w ++ joinWithGaps rest []

/-- A text segment whose virtual lines are the given list, independent of the
`rtl_fix` flag (a plain left-to-right `Body` renders the same text either
way, contents.py 88-99). -/
def linesSeg (lines : List String) : SegmentW :=
  ⟨lines.length, fun y _ => lines.getD y.toNat ""⟩

/-- A one-segment left-to-right document with the given virtual lines. -/
def docFromLines (lines : List String) : Content := ⟨[linesSeg lines], false⟩

/-- A right-to-left-flagged document with a single one-line segment whose
visual (`rtl_fix=True`) text is `"xy"` and whose logical (`rtl_fix=False`)
text is `"ab"`. -/
def docC1 : Content := ⟨[⟨1, fun _ fix => if fix then "xy" else "ab"⟩], true⟩

/-- As `docC1` but with logical text `"zz"`: it agrees with `docC1` on all
`rtl_fix=True` line text and differs on the logical text. -/
def docC1b : Content := ⟨[⟨1, fun _ fix => if fix then "xy" else "zz"⟩], true⟩

/-- Two-line document whose line-1 fingerprint is `"B."`. -/
def docC2 : Content := docFromLines ["X.", "A. B."]

/-- One-line document containing two occurrences of `"ab"`. -/
def docC3 : Content := docFromLines ["ab ab"]

/-- Two-line document whose line-1 fingerprint is `"B."` (line 1 sits exactly
at `around.y + radius` for `around.y = 0`, `radius = 1`). -/
def docC5 : Content := docFromLines ["X.", "A. B."]

/-- Document with the phrase `"quick brown fox"` split across its two wrapped
lines. -/
def docC6 : Content := docFromLines ["the quick", "brown fox"]

/-- One-segment, one-line document rendering `"hi"` at every offset. -/
def docC8 : Content := ⟨[⟨1, fun _ _ => "hi"⟩], false⟩

/-- Two-line document whose only occurrence of `"hello"` is on line 0. -/
def docC10 : Content := docFromLines ["hello", "world"]

theorem searchLoopF_some {D : Content} {fix : Bool} {words : List String}
    {c : Coordinate} {fwd : Bool} :
    ∀ {L : List Int} {m : Coordinate}, searchLoopF D fix words c fwd L = some m →
      ∃ l ∈ L, acceptAt D fix words c fwd l = some m := by
  intro L m h
  induction L with
  | nil => simp [searchLoopF] at h
  | cons l rest ih =>
      rw [searchLoopF] at h
      cases hacc : acceptAt D fix words c fwd l with
      | some m2 =>
          rw [hacc] at h
          exact ⟨l, List.mem_cons_self l rest, by rw [hacc]; exact h⟩
      | none =>
          rw [hacc] at h
          obtain ⟨l2, hl2, h2⟩ := ih h
          exact ⟨l2, List.mem_cons_of_mem l hl2, h2⟩

theorem acceptAt_some {D : Content} {fix : Bool} {words : List String}
    {c : Coordinate} {fwd : Bool} {l : Int} {m : Coordinate}
    (h : acceptAt D fix words c fwd l = some m) :
    m.y = l ∧ ¬(l = c.y ∧ m.x ≤ c.x) := by
  unfold acceptAt at h
  split at h
  · exact absurd h (by simp)
  · split at h
    · exact absurd h (by simp)
    · split at h
      · split at h
        · exact absurd h (by simp)
        · next hrej =>
            obtain rfl := Option.some.inj h
            exact ⟨rfl, hrej⟩
      · exact absurd h (by simp)

/-- C3 (counterexample): the claim asserts that a second `search_next` call
with the identical unchanged cursor and pattern returns a *different*
Coordinate than the first.  On `docC3` the first call from `(-1, 0)` returns
`(0, 0)`, and the identical second call returns the very same `(0, 0)`
(`search_next` is deterministic in its arguments), so the claim fails at
this input. -/
theorem C3_counterexample :
    ¬(searchNext id docC3 "ab" ⟨-1, 0⟩ true = some ⟨0, 0⟩ →
      searchNext id docC3 "ab" ⟨-1, 0⟩ true ≠ some ⟨0, 0⟩) :=
  fun h => h (by decide) (by decide)

/-- C3 (amended): `search_next` is deterministic, so a repeated call with an
unchanged cursor re-returns the same Coordinate; the non-repetition
guarantee holds for the controller's actual protocol (app.py 295-307), which
replaces the cursor with the returned match before the next call: if a call
from cursor `c` returns match `m`, a call from cursor `m` never returns `m`
again (the already-visited check at contents.py 312 rejects it). -/
theorem C3_theorem (gd : String → String) (D : Content) (p : String)
    (c : Coordinate) (fwd : Bool) (m : Coordinate)
    (_h : searchNext gd D p c fwd = some m) :
    searchNext gd D p m fwd ≠ some m := by
  intro h2
  obtain ⟨l, _, hacc⟩ := searchLoopF_some h2
  obtain ⟨hy, hrej⟩ := acceptAt_some hacc
  exact hrej ⟨hy.symm, le_refl m.x⟩

/-- C3 (witness): on `docC3` the first call from `(-1, 0)` finds `(0, 0)`,
and the follow-up call from the updated cursor `(0, 0)` does not re-return
`(0, 0)`. -/
theorem C3_witness :
    searchNext id docC3 "ab" ⟨-1, 0⟩ true = some ⟨0, 0⟩ ∧
      searchNext id docC3 "ab" ⟨0, 0⟩ true ≠ some ⟨0, 0⟩ :=
  ⟨by decide, C3_theorem id docC3 "ab" ⟨-1, 0⟩ true ⟨0, 0⟩ (by decide)⟩

/-- C10: phrase search never wraps around the document ends.  A forward
match starts at or after the cursor line, a backward match between line 0
and the cursor line; and on `docC10`, whose only occurrence of `"hello"`
is on line 0, a forward search from line 1 returns `None` instead of
wrapping around. -/
theorem C10_theorem :
    (∀ (gd : String → String) (D : Content) (p : String) (c m : Coordinate),
        searchNext gd D p c true = some m → c.y ≤ m.y) ∧
    (∀ (gd : String → String) (D : Content) (p : String) (c m : Coordinate),
        searchNext gd D p c false = some m → 0 ≤ m.y ∧ m.y ≤ c.y) ∧
    searchNext id docC10 "hello" ⟨-1, 1⟩ true = none := by
  refine ⟨?_, ?_, by decide⟩
  · intro gd D p c m h
    obtain ⟨l, hl, hacc⟩ := searchLoopF_some h
    obtain ⟨hy, -⟩ := acceptAt_some hacc
    rw [searchRange, if_pos rfl] at hl
    have := mem_intRange hl
    omega
  · intro gd D p c m h
    obtain ⟨l, hl, hacc⟩ := searchLoopF_some h
    obtain ⟨hy, -⟩ := acceptAt_some hacc
    rw [searchRange] at hl
    simp only [Bool.false_eq_true, if_false, List.mem_reverse] at hl
    have := mem_intRange hl
    omega

/-- C10 (witness): a concrete forward search on `docC10` finds `(0, 0)` from
cursor line 0, which indeed lies at or after the cursor line. -/
theorem C10_witness :
    searchNext id docC10 "hello" ⟨-1, 0⟩ true = some ⟨0, 0⟩ ∧
      (⟨-1, 0⟩ : Coordinate).y ≤ (⟨0, 0⟩ : Coordinate).y :=
  ⟨by decide, C10_theorem.1 id docC10 "hello" ⟨-1, 0⟩ ⟨0, 0⟩ (by decide)⟩

theorem grabLines_congr {D1 D2 : Content} (hv : vheight D1 = vheight D2)
    (ht : ∀ y, getTextAt D1 y true = getTextAt D2 y true) (linenr : Int)
    (fwd : Bool) : grabLines D1 true linenr fwd = grabLines D2 true linenr fwd := by
  unfold grabLines
  apply List.filterMap_congr
  intro i _
  dsimp only
  rw [hv, ht]

theorem acceptAt_congr {D1 D2 : Content} (hv : vheight D1 = vheight D2)
    (ht : ∀ y, getTextAt D1 y true = getTextAt D2 y true) (words : List String)
    (c : Coordinate) (fwd : Bool) (l : Int) :
    acceptAt D1 true words c fwd l = acceptAt D2 true words c fwd l := by
  unfold acceptAt chunkAt
  rw [grabLines_congr hv ht l fwd, ht l]

theorem searchLoopF_congr {D1 D2 : Content} (hv : vheight D1 = vheight D2)
    (ht : ∀ y, getTextAt D1 y true = getTextAt D2 y true) (words : List String)
    (c : Coordinate) (fwd : Bool) :
    ∀ L : List Int,
      searchLoopF D1 true words c fwd L = searchLoopF D2 true words c fwd L := by
  intro L
  induction L with
  | nil => rfl
  | cons l rest ih =>
      rw [searchLoopF, searchLoopF, acceptAt_congr hv ht words c fwd l, ih]

/-- C1 (counterexample): the claim asserts that `search_next` matches against
the logical (`apply_rtl_fix=false`) line text for every document, including
right-to-left-flagged ones.  On the right-to-left document `docC1`, whose
line renders `"xy"` with `rtl_fix=True` and `"ab"` with `rtl_fix=False`,
`search_next` for `"ab"` returns `None`, while the spec-described logical
variant finds it at `(0, 0)`: the code matches the `rtl_fix=True` text
(contents.py 294 and 307 pass no `rtl_fix` argument, whose default is
`True`), not the logical text. -/
theorem C1_counterexample :
    docC1.is_rtl = true ∧
      searchNext id docC1 "ab" ⟨-1, 0⟩ true = none ∧
      searchNextSpecLogical id docC1 "ab" ⟨-1, 0⟩ true = some ⟨0, 0⟩ := by
  refine ⟨rfl, by decide, by decide⟩

/-- C1 (amended): `search_next` fetches every lookahead line (and the
candidate-line length at contents.py 307) with the *default*
`rtl_fix=True` — the visually reordered text for right-to-left segments —
compensating by applying the bidi transform to the query instead
(contents.py 271-272); the `rtl_fix=False` logical extraction is used by
`get_n_visible_sentences` and `alignment_search`, not by `search_next`.
Formally: the result of `search_next` depends only on each line's
`rtl_fix=True` rendering (two documents agreeing on heights, the rtl flag
and all `rtl_fix=True` line text get identical results, however much their
logical `rtl_fix=False` text differs). -/
theorem C1_theorem (gd : String → String) (D1 D2 : Content) (p : String)
    (c : Coordinate) (fwd : Bool) (hrtl : D1.is_rtl = D2.is_rtl)
    (hv : vheight D1 = vheight D2)
    (ht : ∀ y, getTextAt D1 y true = getTextAt D2 y true) :
    searchNext gd D1 p c fwd = searchNext gd D2 p c fwd := by
  unfold searchNext searchWords searchRange
  rw [hrtl, hv, searchLoopF_congr hv ht]

/-- C1 (witness): `docC1` and `docC1b` agree on the rtl flag, heights and all
`rtl_fix=True` text while their logical text differs (`"ab"` vs `"zz"`), and
`search_next` cannot tell them apart. -/
theorem C1_witness :
    (docC1.is_rtl = docC1b.is_rtl ∧ vheight docC1 = vheight docC1b ∧
        ∀ y, getTextAt docC1 y true = getTextAt docC1b y true) ∧
      searchNext id docC1 "ab" ⟨-1, 0⟩ true = searchNext id docC1b "ab" ⟨-1, 0⟩ true :=
  ⟨⟨rfl, rfl, fun _ => rfl⟩,
    C1_theorem id docC1 docC1b "ab" ⟨-1, 0⟩ true rfl rfl (fun _ => rfl)⟩

/-- C6 (counterexample): the claim asserts backward search finds a phrase
split across wrapped lines at its starting line, symmetrically to forward
search.  On `docC6` (`"the quick"` / `"brown fox"`), forward search from
before the occurrence finds `"quick brown fox"` at `(4, 0)`, but backward
search from the cursor `(9, 1)` — strictly after the occurrence — returns
`None` instead of a match at line 0. -/
theorem C6_counterexample :
    searchNext id docC6 "quick brown fox" ⟨-1, 0⟩ true = some ⟨4, 0⟩ ∧
      searchNext id docC6 "quick brown fox" ⟨9, 1⟩ false = none := by
  exact ⟨by decide, by decide⟩

/-- C6 (amended): phrase search tolerates line-wrap boundaries only in the
forward direction.  The backward scan assembles its 10-line window in
*decreasing* line order (contents.py 292: `target_line = linenr - i`), so
the joined chunk at line 1 of `docC6` reads `"brown fox the quick"` and a
phrase spanning the wrap can never match backward, while the forward scan
joins in increasing order and finds it at its starting line. -/
theorem C6_theorem :
    chunkAt docC6 true 1 false = "brown fox the quick" ∧
      searchNext id docC6 "quick brown fox" ⟨-1, 0⟩ true = some ⟨4, 0⟩ ∧
      searchNext id docC6 "quick brown fox" ⟨9, 1⟩ false = none := by
  exact ⟨by decide, by decide, by decide⟩

theorem getTextAtAux_eq_none {segs : List SegmentW} :
    ∀ {acc y : Int} {fix : Bool},
      acc + ((segs.map SegmentW.height).sum : Int) ≤ y →
      getTextAtAux segs acc y fix = none := by
  induction segs with
  | nil => intro acc y fix _; rfl
  | cons s rest ih =>
      intro acc y fix h
      simp only [List.map_cons, List.sum_cons, Nat.cast_add] at h
      rw [getTextAtAux, if_neg (by omega)]
      exact ih (by omega)

theorem getTextAtAux_isSome {segs : List SegmentW} :
    ∀ {acc y : Int} {fix : Bool},
      acc ≤ y → y < acc + ((segs.map SegmentW.height).sum : Int) →
      (getTextAtAux segs acc y fix).isSome = true := by
  induction segs with
  | nil => intro acc y fix h1 h2; simp at h2; omega
  | cons s rest ih =>
      intro acc y fix h1 h2
      simp only [List.map_cons, List.sum_cons, Nat.cast_add] at h2
      rw [getTextAtAux]
      by_cases hc : acc + (s.height : Int) > y
      · rw [if_pos hc]; rfl
      · rw [if_neg hc]
        exact ih (by omega) (by omega)

/-- C8: the claim asserts `get_text_at(y)` returns absent for *every* `y`
outside `[0, height)`.  What the code guarantees: absent for `y ≥ height`
(the accumulation loop falls through, contents.py 259-264), a string for
`0 ≤ y < height`; but for `y < 0` the first segment's guard
`accumulated_height + segment_height > y` is already true, so the request is
*delegated* to the first segment's renderer with a negative local offset
rather than answered with absent. -/
theorem C8_theorem :
    (∀ (D : Content) (y : Int) (fix : Bool),
        (vheight D : Int) ≤ y → getTextAt D y fix = none) ∧
    (∀ (D : Content) (y : Int) (fix : Bool),
        0 ≤ y → y < (vheight D : Int) → (getTextAt D y fix).isSome = true) ∧
    (∀ (D : Content) (y : Int) (fix : Bool),
        y < 0 → D.segments ≠ [] → (getTextAt D y fix).isSome = true) := by
  refine ⟨?_, ?_, ?_⟩
  · intro D y fix h
    exact getTextAtAux_eq_none (by simpa [vheight] using h)
  · intro D y fix h1 h2
    exact getTextAtAux_isSome h1 (by simpa [vheight] using h2)
  · intro D y fix h1 h2
    unfold getTextAt
    cases hs : D.segments with
    | nil => exact absurd hs h2
    | cons s rest =>
        rw [getTextAtAux, if_pos (by omega)]
        rfl

/-- C8 (counterexample): on `docC8` (height 1) the out-of-range coordinate
`y = -1` yields `some "hi"` — the first segment's rendering at local offset
`-1` — not the absent result the claim requires for every `y` outside
`[0, height)`. -/
theorem C8_counterexample :
    (-1 : Int) < 0 ∧ getTextAt docC8 (-1) true = some "hi" := by
  exact ⟨by decide, by decide⟩

/-- C8 (witness): above the document (`y = 3 ≥ height docC8 = 1`) the
addressor does return absent, and an in-range lookup returns a string. -/
theorem C8_witness :
    ((vheight docC8 : Int) ≤ 3 ∧ getTextAt docC8 3 true = none) ∧
      ((0 : Int) ≤ 0 ∧ (0 : Int) < (vheight docC8 : Int) ∧
        (getTextAt docC8 0 true).isSome = true) :=
  ⟨⟨by decide, C8_theorem.1 docC8 3 true (by decide)⟩,
    ⟨by decide, by decide, C8_theorem.2.1 docC8 0 true (by decide) (by decide)⟩⟩

/-- C9: the sentence segmenter normalises whitespace runs to single spaces,
splits on the literal period keeping it attached to the preceding fragment,
keeps a non-empty trailing fragment without a terminal period, and drops
empty fragments; in particular the two round-trip examples of the claim
hold. -/
theorem C9_theorem :
    (∀ p s : String, s ∈ text_to_sentences p → s ≠ "") ∧
      text_to_sentences "A. B. C." = ["A.", "B.", "C."] ∧
      text_to_sentences "A. B" = ["A.", "B"] ∧
      text_to_sentences "A.   B.\nC" = ["A.", "B.", "C"] ∧
      text_to_sentences ".. a." = ["a."] := by
  refine ⟨?_, by decide, by decide, by decide, by decide⟩
  intro p s h
  unfold text_to_sentences at h
  have := (List.mem_filter.mp h).2
  simpa using this

/-- C9 (witness): the trailing fragment `"A."` of `split("A. B")` is indeed a
member of the output and non-empty. -/
theorem C9_witness :
    ("A." ∈ text_to_sentences "A. B") ∧ "A." ≠ "" :=
  ⟨by decide, C9_theorem.1 "A. B" "A." (by decide)⟩

theorem alignLoop_eq_find (D : Content) (p : String) :
    ∀ L : List Int,
      alignLoop D p L =
        (L.find? (fun l => decide (lineFingerprint D l = p))).map (fun l => l + 1) := by
  intro L
  induction L with
  | nil => rfl
  | cons l rest ih =>
      by_cases hl : lineFingerprint D l = p
      · rw [alignLoop, if_pos hl, List.find?_cons_of_pos _ (by simpa using hl)]
        rfl
      · rw [alignLoop, if_neg hl, List.find?_cons_of_neg _ (by simpa using hl), ih]

theorem alignmentSearch_pos {D : Content} {p : String} {c : Coordinate}
    {r n : Int} (h : alignmentSearch D p c r = some n) : 1 ≤ n := by
  unfold alignmentSearch at h
  rw [alignLoop_eq_find] at h
  rw [Option.map_eq_some'] at h
  obtain ⟨l, hfind, rfl⟩ := h
  have hmem := List.mem_of_find?_eq_some hfind
  unfold alignRange at hmem
  split at hmem
  · have := mem_intRange hmem
    omega
  · have := mem_intRange hmem
    omega

/-- C2: `alignment_search` returns a plain integer (`linenr + 1`, hence
non-zero and truthy) or `None`, while `perform_alignment` (app.py 200-201)
runs `if match: self.screen.scroll_to(y=match.y)`.  Attribute access `.y`
on an `int` raises `AttributeError` (modelled by `scrollStep` returning
`none`), so every run in which `alignment_search` finds a match dies before
scrolling: the success path of cross-book alignment never completes. -/
theorem C2_theorem (D : Content) (p : String) (c : Coordinate) (r n : Int)
    (h : alignmentSearch D p c r = some n) :
    scrollStep (alignResultToPy (alignmentSearch D p c r)) = none := by
  have hn := alignmentSearch_pos h
  rw [h]
  have hne : n ≠ 0 := by omega
  simp [alignResultToPy, scrollStep, pyTruthy, getattrY, hne]

/-- C2 (witness): on `docC2` the alignment search finds line 1 (returning
`2`), and the subsequent scroll step of `perform_alignment` raises
(`none`). -/
theorem C2_witness :
    alignmentSearch docC2 "B." ⟨-1, 0⟩ (-1) = some 2 ∧
      scrollStep (alignResultToPy (alignmentSearch docC2 "B." ⟨-1, 0⟩ (-1))) = none :=
  ⟨by decide, C2_theorem docC2 "B." ⟨-1, 0⟩ (-1) 2 (by decide)⟩

/-- C4 (counterexample): the claim asserts a missing or unloadable
parallel-sentence index degrades to "no match" with no exception escaping
the alignment call.  But `get_matching_lines_from_json` opens `matches.json`
with no try/except (app.py 159), so with the file absent the call raises
`FileNotFoundError` (an `Except.error`, not an `ok none` "no match"), and
nothing in `perform_alignment` or `action_switch_book` catches it. -/
theorem C4_counterexample :
    get_matching_lines_from_json none "abc" = Except.error "FileNotFoundError" ∧
      get_matching_lines_from_json none "abc" ≠ Except.ok none :=
  ⟨rfl, fun h => Except.noConfusion h⟩

/-- C4 (amended): only the fingerprint-miss case degrades gracefully: when
the index file loads, a query matching no entry yields `ok none` (the "no
match" alert path of app.py 196-203); a missing or unreadable file instead
raises out of the lookup, and no handler in the alignment call catches
it. -/
theorem C4_theorem :
    (∀ l : String,
        get_matching_lines_from_json none l = Except.error "FileNotFoundError") ∧
    (∀ (data : List MatchEntry) (l : String),
        (∀ e ∈ data, e.eng ≠ l ∧ e.heb ≠ l) →
        get_matching_lines_from_json (some data) l = Except.ok none) := by
  refine ⟨fun _ => rfl, ?_⟩
  intro data l h
  unfold get_matching_lines_from_json
  induction data with
  | nil => rfl
  | cons e rest ih =>
      obtain ⟨h1, h2⟩ := h e (List.mem_cons_self e rest)
      simp only [lookupMatches]
      rw [if_neg h1, if_neg h2]
      exact ih (fun e2 he2 => h e2 (List.mem_cons_of_mem e he2))

/-- C4 (witness): a loadable one-entry index with no matching entry returns
`ok none`. -/
theorem C4_witness :
    (∀ e ∈ [MatchEntry.mk "a" "b"], e.eng ≠ "c" ∧ e.heb ≠ "c") ∧
      get_matching_lines_from_json (some [MatchEntry.mk "a" "b"]) "c" =
        Except.ok none :=
  ⟨by decide, C4_theorem.2 [MatchEntry.mk "a" "b"] "c" (by decide)⟩

/-- C5 (counterexample): the claim reads the scan range as the closed
interval `[around.y - radius, around.y + radius]` clipped to bounds.  On
`docC5` with `around = (-1, 0)` and `radius = 1`, line `1 = around.y +
radius` is in bounds and its fingerprint equals the query `"B."`, so the
claim requires the result `2`; but the code's `range(max(0, y - radius),
min(y + radius, height))` (contents.py 408-411) *excludes* the upper
endpoint, scans only line 0, and returns `None`. -/
theorem C5_counterexample :
    alignmentSearch docC5 "B." ⟨-1, 0⟩ 1 = none ∧
      lineFingerprint docC5 1 = "B." ∧
      ((0 : Int) - 1 ≤ 1 ∧ (1 : Int) ≤ 0 + 1 ∧ (1 : Int) < (vheight docC5 : Int)) := by
  exact ⟨by decide, by decide, by decide⟩

/-- C5 (amended): `alignment_search` scans the full document when
`radius == -1`, and otherwise the half-open range `[max(0, around.y -
radius), min(around.y + radius, height))` — the upper endpoint `around.y +
radius` is *excluded*; within the scanned range it returns `linenr + 1` for
the first line whose own fingerprint (10-line lookahead with
`rtl_fix=False`, sentence split, first sentence dropped, next up to 5
sentences joined by single spaces — `lineFingerprint`) equals the query by
exact string equality, and `None` when no scanned line matches. -/
theorem C5_theorem (D : Content) (p : String) (c : Coordinate) (r : Int) :
    (r ≠ -1 →
      alignmentSearch D p c r =
        ((intRange (max 0 (c.y - r)) (min (c.y + r) (vheight D : Int))).find?
            (fun l => decide (lineFingerprint D l = p))).map (fun l => l + 1)) ∧
    alignmentSearch D p c (-1) =
      ((intRange 0 (vheight D : Int)).find?
          (fun l => decide (lineFingerprint D l = p))).map (fun l => l + 1) := by
  constructor
  · intro hr
    unfold alignmentSearch alignRange
    rw [if_neg hr, alignLoop_eq_find]
  · unfold alignmentSearch alignRange
    rw [if_pos rfl, alignLoop_eq_find]

/-- C5 (witness): with `radius = 2` the scanned range of `docC5` covers both
lines and the first-match rule yields `2`, as the amended characterisation
computes. -/
theorem C5_witness :
    ((2 : Int) ≠ -1) ∧
      alignmentSearch docC5 "B." ⟨-1, 0⟩ 2 =
        ((intRange (max 0 (0 - 2)) (min (0 + 2) (vheight docC5 : Int))).find?
            (fun l => decide (lineFingerprint docC5 l = "B."))).map (fun l => l + 1) :=
  ⟨by decide, ( C5_theorem docC5 "B." ⟨-1, 0⟩ 2).1 (by decide)⟩

theorem buildJustified_eq {sw extra : Int} (hsw : 0 ≤ sw) (hex : 0 ≤ extra) :
    ∀ (ws : List String) (i : Nat),
      buildJustified ws i sw extra =
        joinWithGaps ws ((List.range (ws.length - 1)).map
          (fun k => sw.toNat + if i + k < extra.toNat then 1 else 0)) := by
  intro ws
  induction ws with
  | nil => intro i; rfl
  | cons w rest ih =>
      intro i
      cases rest with
      | nil => rfl
      | cons r rs =>
          have hsp : pySpaces (sw + (if (i : Int) < extra then 1 else 0)) =
              String.mk (List.replicate
                (sw.toNat + if i + 0 < extra.toNat then 1 else 0) ' ') := by
            unfold pySpaces
            have hn : (sw + (if (i : Int) < extra then 1 else 0)).toNat =
                sw.toNat + if i + 0 < extra.toNat then 1 else 0 := by
              split <;> split <;> omega
            rw [hn]
          have hfun : ((fun k => sw.toNat + if i + k < extra.toNat then 1 else 0) ∘
                Nat.succ) =
              (fun k => sw.toNat + if (i + 1) + k < extra.toNat then 1 else 0) := by
            funext k
            simp only [Function.comp_apply]
            congr 1
            split <;> split <;> omega
          simp only [buildJustified, ih (i + 1), List.length_cons]
          rw [show rs.length + 1 + 1 - 1 = rs.length + 1 from rfl,
            List.range_succ_eq_map, List.map_cons, List.map_map, hfun, hsp]
          rfl

theorem joinWithGaps_length :
    ∀ (ws : List String) (gs : List Nat), gs.length = ws.length - 1 →
      (joinWithGaps ws gs).length = (ws.map String.length).sum + gs.sum := by
  intro ws
  induction ws with
  | nil =>
      intro gs h
      have hg : gs = [] := List.eq_nil_of_length_eq_zero (by simpa using h)
      subst hg
      rfl
  | cons w rest ih =>
      intro gs h
      cases rest with
      | nil =>
          have hg : gs = [] := List.eq_nil_of_length_eq_zero (by simpa using h)
          subst hg
          simp [joinWithGaps]
      | cons r rs =>
          cases gs with
          | nil => simp at h
          | cons g gs2 =>
              simp only [joinWithGaps]
              rw [String.length_append, String.length_append,
                ih gs2 (by simpa using h)]
              simp only [List.map_cons, List.sum_cons]
              have : (String.mk (List.replicate g ' ')).length = g := by
                simp [String.length]
              omega

theorem spec_gapWidths_sum (slots sw extra : Nat) :
    (spec_gapWidths slots sw extra).sum = slots * sw + min extra slots := by
  induction slots with
  | zero => simp [spec_gapWidths]
  | succ n ih =>
      have ih2 : ((List.range n).map (fun i => sw + if i < extra then 1 else 0)).sum =
          n * sw + min extra n := ih
      unfold spec_gapWidths
      rw [List.range_succ, List.map_append, List.sum_append, ih2]
      simp only [List.map_cons, List.map_nil, List.sum_cons, List.sum_nil]
      have hmin : min extra n + (if n < extra then 1 else 0) = min extra (n + 1) := by
        split <;> omega
      rw [Nat.succ_mul]
      omega

/-- C7 (counterexample): the claim promises an exactly-`target_width` result
for *every* justified right-to-left line with more than one word exceeding
80% of the width.  The line `"aaaaaa bbbbbb"` at width 10 satisfies both
hypotheses, but its words alone are 12 characters: `total_spaces_needed` is
negative, `" " * space_width` degenerates to the empty string, and the
output `"aaaaaabbbbbb"` has length 12, not 10. -/
theorem C7_counterexample :
    1 < (pySplitWs (pyStrip "aaaaaa bbbbbb")).length ∧
      4 * 10 < 5 * (pyStrip "aaaaaa bbbbbb").length ∧
      renderLineRtlText "aaaaaa bbbbbb" 10 true = "aaaaaabbbbbb" ∧
      (renderLineRtlText "aaaaaa bbbbbb" 10 true).length ≠ 10 := by
  exact ⟨by decide, by decide, by decide, by decide⟩

/-- C7 (amended): with the additional hypothesis that the words fit the
width (`total_chars ≤ target_width`, so `total_spaces_needed ≥ 0`), the
justified output is exactly the words joined with the spec's gap widths —
`space_width` everywhere, one extra space on the first
`total_spaces_needed mod space_slots` gaps — and has length exactly
`target_width`. -/
theorem C7_theorem (raw : String) (W : Nat)
    (h2 : 1 < (pySplitWs (pyStrip raw)).length)
    (h8 : 4 * W < 5 * (pyStrip raw).length)
    (hfit : ((pySplitWs (pyStrip raw)).map String.length).sum ≤ W) :
    renderLineRtlText raw W true =
      joinWithGaps (pySplitWs (pyStrip raw))
        (spec_gapWidths ((pySplitWs (pyStrip raw)).length - 1)
          (((W : Int) - (((pySplitWs (pyStrip raw)).map String.length).sum : Int)).ediv
              (((pySplitWs (pyStrip raw)).length : Int) - 1)).toNat
          (((W : Int) - (((pySplitWs (pyStrip raw)).map String.length).sum : Int)).emod
              (((pySplitWs (pyStrip raw)).length : Int) - 1)).toNat) ∧
    (renderLineRtlText raw W true).length = W := by
  have hne0 : ¬(pyStrip raw = "") := by
    intro h0
    rw [h0] at h2
    exact absurd h2 (by decide)
  have hbranch : renderLineRtlText raw W true =
      buildJustified (pySplitWs (pyStrip raw)) 0
        (((W : Int) - (((pySplitWs (pyStrip raw)).map String.length).sum : Int)).ediv
          (((pySplitWs (pyStrip raw)).length : Int) - 1))
        (((W : Int) - (((pySplitWs (pyStrip raw)).map String.length).sum : Int)).emod
          (((pySplitWs (pyStrip raw)).length : Int) - 1)) := by
    unfold renderLineRtlText
    rw [if_neg hne0, if_pos ⟨rfl, h2, h8⟩]
  generalize hws : pySplitWs (pyStrip raw) = ws at hbranch h2 hfit ⊢
  have hlen : 2 ≤ ws.length := h2
  have hslots : 0 < (ws.length : Int) - 1 := by omega
  have hneed : (0 : Int) ≤ (W : Int) - ((ws.map String.length).sum : Int) := by omega
  set needed : Int := (W : Int) - ((ws.map String.length).sum : Int) with hneedeq
  set slots : Int := (ws.length : Int) - 1 with hslotseq
  set sw : Int := needed.ediv slots with hsweq
  set ex : Int := needed.emod slots with hexeq
  have hsw : 0 ≤ sw := Int.ediv_nonneg hneed (le_of_lt hslots)
  have hex : 0 ≤ ex := Int.emod_nonneg needed (by omega)
  have hexlt : ex < slots := Int.emod_lt_of_pos needed hslots
  have hid : slots * sw + ex = needed := Int.ediv_add_emod needed slots
  have hmain : renderLineRtlText raw W true =
      joinWithGaps ws (spec_gapWidths (ws.length - 1) sw.toNat ex.toNat) := by
    rw [hbranch, buildJustified_eq hsw hex]
    have hfun0 : (fun k => sw.toNat + if 0 + k < ex.toNat then 1 else 0) =
        (fun k => sw.toNat + if k < ex.toNat then 1 else 0) := by
      funext k
      rw [Nat.zero_add]
    rw [hfun0]
    rfl
  refine ⟨hmain, ?_⟩
  rw [hmain, joinWithGaps_length ws _ (by unfold spec_gapWidths; simp),
    spec_gapWidths_sum]
  have hminr : min ex.toNat (ws.length - 1) = ex.toNat := Nat.min_eq_left (by omega)
  rw [hminr]
  have hNI : (((ws.length - 1) * sw.toNat : Nat) : Int) = slots * sw := by
    have ha : ((ws.length - 1 : Nat) : Int) = slots := by omega
    have hb : ((sw.toNat : Nat) : Int) = sw := by omega
    rw [Nat.cast_mul, ha, hb]
  have hlin : (((ws.length - 1) * sw.toNat : Nat) : Int) + ex = needed := by
    rw [hNI]
    exact hid
  omega

/-- C7 (witness): the line `"abc de fg"` justified into 11 columns (7 word
characters, 2 gaps of width 2) has length exactly 11. -/
theorem C7_witness :
    (1 < (pySplitWs (pyStrip "abc de fg")).length ∧
        4 * 11 < 5 * (pyStrip "abc de fg").length ∧
        ((pySplitWs (pyStrip "abc de fg")).map String.length).sum ≤ 11) ∧
      (renderLineRtlText "abc de fg" 11 true).length = 11 :=
  ⟨⟨by decide, by decide, by decide⟩,
    ( C7_theorem "abc de fg" 11 (by decide) (by decide) (by decide)).2⟩
